import Mathlib

/-
Verification of the picoclaw WhatsApp messaging channel (Go package
pkg/channels): message validator, HMAC signing, exponential-backoff
reconnection and the WebSocket channel glue.

Modelling conventions:
* Go strings are modelled as List Char.  Go len(s) counts UTF-8 bytes while
  the model counts code points; the two coincide on ASCII data, which is all
  the concrete inputs below use.
* time.Duration is modelled as Nat nanoseconds, time.Time Unix seconds as
  Int, passed explicitly where the code calls time.Now().
* Errors built with fmt.Errorf are modelled by the closed inductive
  ValidationError; wrapping with %w is modelled by constructors carrying the
  inner error.
* hex(HMAC-SHA256(key, data)) is modelled as an ideal MAC: an injective
  (per fixed key) encoding of the signed bytes.  This is the standard
  symbolic model; it is exactly what the integrity claims about the code
  assume of HMAC.
-/

namespace Picoclaw

/-- Shorthand: the character list of a string literal. -/
def str (s : String) : List Char := s.data

/-- Opening brace character (0x7b). -/
def lbrace : Char := Char.ofNat 123

/-- Closing brace character (0x7d). -/
def rbrace : Char := Char.ofNat 125

/-- Validation and channel errors.  Each constructor corresponds to one
fmt.Errorf site in whatsapp_validator.go / whatsapp.go; constructors with an
argument model error wrapping with %w. -/
inductive ValidationError where
  | invalidMessageType (t : List Char)
  | missingFrom
  | invalidSender (e : ValidationError)
  | missingContentOrMedia
  | contentValidationFailed (e : ValidationError)
  | contentTooLong
  | invalidMediaPath (e : ValidationError)
  | traversalDetected
  | invalidExtension
  | signatureVerificationFailed (e : ValidationError)
  | missingSignature
  | invalidSignature
  | statusMissingId
  | statusMissingStatus
  | invalidStatus (s : List Char)
  | errorMissingText
  | errorTextTooLong
  | phoneEmpty
  | phoneLengthInvalid
  | outgoingTypeNotMessage
  | invalidRecipient (e : ValidationError)
  | emptyBridgeURL
  | urlParseError
  | invalidScheme (s : List Char)
deriving DecidableEq, Repr

deriving instance DecidableEq for Except

/-- MaxContentLength (whatsapp_validator.go). -/
def MaxContentLength : Nat := 4096

/-- One second in nanoseconds (time.Second). -/
def Second : Nat := 1000000000

/-- MaxReconnectAttempts (whatsapp_validator.go). -/
def MaxReconnectAttempts : Nat := 5

/-- The characters dropped by the strings.Map pass of sanitizeContent:
runes below 32 other than newline, carriage return and tab. -/
def isStrippedCtl (c : Char) : Bool :=
  c.toNat < 32 && !(c = '\n') && !(c = '\r') && !(c = '\t')

/-- Go unicode.IsSpace, used by strings.TrimSpace: the White_Space code
points. -/
def goIsSpace (c : Char) : Bool :=
  let n := c.toNat
  (9 ≤ n && n ≤ 13) || n = 32 || n = 133 || n = 160 ||
    n = 5760 || (8192 ≤ n && n ≤ 8202) || n = 8232 || n = 8233 ||
    n = 8239 || n = 8287 || n = 12288

/-- strings.TrimSpace: drop White_Space characters from both ends. -/
def trimSpace (l : List Char) : List Char :=
  ((l.dropWhile goIsSpace).reverse.dropWhile goIsSpace).reverse

/-- sanitizeContent (whatsapp_validator.go:280-301).  Checks the length of
the raw content first, then strips dangerous control characters
(strings.Map), removes NUL bytes (strings.ReplaceAll of "\x00" by the empty
string, modelled as a filter since the pattern is a single character) and
trims surrounding whitespace. -/
def sanitizeContent (content : List Char) : Except ValidationError (List Char) :=
  if content.length > MaxContentLength then
    .error .contentTooLong
  else
    let c1 := content.filter (fun c => !(isStrippedCtl c))
    let c2 := c1.filter (fun c => !(c = Char.ofNat 0))
    .ok (trimSpace c2)

/-- The strip-and-trim transformation of sanitizeContent without its length
gate: what the spec calls the content "after sanitization". -/
def sanitizeTransform (content : List Char) : List Char :=
  trimSpace ((content.filter (fun c => !(isStrippedCtl c))).filter
    (fun c => !(c = Char.ofNat 0)))

/-- validatePhoneNumber (whatsapp_validator.go:259-278): non-empty and
between 1 and 50 characters. -/
def validatePhoneNumber (phone : List Char) : Except ValidationError Unit :=
  if phone = [] then .error .phoneEmpty
  else if phone.length < 1 || phone.length > 50 then .error .phoneLengthInvalid
  else .ok ()

/-- ASCII lowercasing.  strings.ToLower also lowercases non-ASCII runes
(e.g. U+0130); that can only matter for media paths containing non-ASCII
characters, and the theorems about extension matching therefore carry an
ASCII hypothesis. -/
def asciiToLower (c : Char) : Char :=
  if 'A' ≤ c && c ≤ 'Z' then Char.ofNat (c.toNat + 32) else c

/-- Whether a string starts with "..". -/
def startsDotDot : List Char → Bool
  | '.' :: '.' :: _ => true
  | _ => false

/-- strings.Contains(path, ".."): two consecutive dots anywhere. -/
def containsDotDot : List Char → Bool
  | [] => false
  | c :: rest => startsDotDot (c :: rest) || containsDotDot rest

/-- The allow-listed media extensions (whatsapp_validator.go:310). -/
def validExtensions : List (List Char) :=
  [str ".jpg", str ".jpeg", str ".png", str ".gif", str ".mp4", str ".mp3",
    str ".pdf", str ".txt"]

/-- validateMediaPath (whatsapp_validator.go:303-323): reject any path
containing "..", then require the lowercased path to end in an allow-listed
extension. -/
def validateMediaPath (path : List Char) : Except ValidationError Unit :=
  if containsDotDot path then .error .traversalDetected
  else if validExtensions.any (fun ext => ext.isSuffixOf (path.map asciiToLower)) then
    .ok ()
  else .error .invalidExtension

/-- The media loop shared by validateIncomingMessage and ValidateOutgoing:
first failing path aborts, wrapped as "invalid media path: %w". -/
def validateMediaList : List (List Char) → Except ValidationError Unit
  | [] => .ok ()
  | p :: rest =>
    match validateMediaPath p with
    | .error e => .error (.invalidMediaPath e)
    | .ok _ => validateMediaList rest

example : sanitizeContent (str "  hi  ") = .ok (str "hi") := by decide
example : validateMediaPath (str "../../etc/passwd.png") = .error .traversalDetected := by decide
example : validateMediaPath (str "a..b.png") = .error .traversalDetected := by decide
example : validateMediaPath (str "photo.PNG") = .ok () := by decide
example : validatePhoneNumber (str "+1") = .ok () := by decide

/-- IncomingMessage (whatsapp_validator.go:43-56).  Field order matters: it
is the order encoding/json serializes the struct in.  The Go field From is
called from_ here because from is reserved in Lean; the Extra field carries
tag "-" and never takes part in (un)marshalling, so it is omitted. -/
structure IncomingMessage where
  type : List Char
  id : List Char := []
  from_ : List Char := []
  chat : List Char := []
  content : List Char := []
  media : List (List Char) := []
  from_name : List Char := []
  status : List Char := []
  error : List Char := []
  timestamp : Int := 0
  signature : List Char := []
deriving DecidableEq, Repr

/-- OutgoingMessage (whatsapp_validator.go:59-66), in struct order. -/
structure OutgoingMessage where
  type : List Char
  to_ : List Char := []
  content : List Char := []
  media : List (List Char) := []
  timestamp : Int := 0
  signature : List Char := []
deriving DecidableEq, Repr

/-- One hexadecimal digit, lowercase. -/
def hexDigit (n : Nat) : Char :=
  if n < 10 then Char.ofNat (48 + n) else Char.ofNat (87 + n)

/-- A four-digit unicode escape as encoding/json writes it. -/
def uEscape (n : Nat) : List Char :=
  ['\\', 'u', hexDigit (n / 4096 % 16), hexDigit (n / 256 % 16),
    hexDigit (n / 16 % 16), hexDigit (n % 16)]

/-- encoding/json string escaping (HTML escaping on, the default used by
json.Marshal): quote, backslash, newline, carriage return and tab get
two-character escapes; other control characters, the HTML characters and
U+2028/U+2029 get unicode escapes; everything else passes through. -/
def jsonEscapeChar (c : Char) : List Char :=
  if c = '"' then ['\\', '"']
  else if c = '\\' then ['\\', '\\']
  else if c = '\n' then ['\\', 'n']
  else if c = '\r' then ['\\', 'r']
  else if c = '\t' then ['\\', 't']
  else if c.toNat < 32 || c = '<' || c = '>' || c = '&' ||
      c.toNat = 8232 || c.toNat = 8233 then uEscape c.toNat
  else [c]

/-- A JSON string literal. -/
def jsonString (s : List Char) : List Char :=
  '"' :: ((s.map jsonEscapeChar).flatten ++ ['"'])

/-- A JSON array of strings, as encoding/json renders a []string. -/
def jsonArray (xs : List (List Char)) : List Char :=
  '[' :: (List.intercalate [','] (xs.map jsonString) ++ [']'])

/-- A JSON integer (int64). -/
def jsonInt (n : Int) : List Char := (toString n).data

/-- A JSON object key followed by its colon. -/
def nameColon (name : List Char) : List Char := jsonString name ++ [':']

/-- A string-valued field carrying omitempty: omitted when empty, otherwise
rendered with its leading comma. -/
def optStrField (name : List Char) (v : List Char) : List Char :=
  if v = [] then [] else ',' :: (nameColon name ++ jsonString v)

/-- A []string-valued field carrying omitempty. -/
def optArrField (name : List Char) (vs : List (List Char)) : List Char :=
  if vs = [] then [] else ',' :: (nameColon name ++ jsonArray vs)

/-- An int64-valued field carrying omitempty: omitted when zero. -/
def optIntField (name : List Char) (v : Int) : List Char :=
  if v = 0 then [] else ',' :: (nameColon name ++ jsonInt v)

/-- json.Marshal of an OutgoingMessage: fields in struct order, type always
present, every other field omitempty. -/
def marshalOutgoing (m : OutgoingMessage) : List Char :=
  lbrace :: (nameColon (str "type") ++ jsonString m.type ++
    optStrField (str "to") m.to_ ++
    optStrField (str "content") m.content ++
    optArrField (str "media") m.media ++
    optIntField (str "timestamp") m.timestamp ++
    optStrField (str "signature") m.signature ++ [rbrace])

/-- json.Marshal of an IncomingMessage: fields in struct order, type always
present, every other tagged field omitempty; Extra has tag "-" and is never
serialized. -/
def marshalIncoming (m : IncomingMessage) : List Char :=
  lbrace :: (nameColon (str "type") ++ jsonString m.type ++
    optStrField (str "id") m.id ++
    optStrField (str "from") m.from_ ++
    optStrField (str "chat") m.chat ++
    optStrField (str "content") m.content ++
    optArrField (str "media") m.media ++
    optStrField (str "from_name") m.from_name ++
    optStrField (str "status") m.status ++
    optStrField (str "error") m.error ++
    optIntField (str "timestamp") m.timestamp ++
    optStrField (str "signature") m.signature ++ [rbrace])

/-- calculateSignature (whatsapp_validator.go:344-348) in the ideal-MAC
model: the real code returns hex(HMAC-SHA256(key, data)); the model returns
an encoding of (key, data) that is injective in data for every fixed key,
which is precisely the collision-freeness the code's integrity guarantees
rely on. -/
def calculateSignature (key data : List Char) : List Char :=
  (str "hmac-sha256:" ++ key ++ str ":") ++ data

/-- VerifySignature (whatsapp_validator.go:147-171): skipped entirely when
no key is configured; otherwise requires a signature, recomputes the MAC
over the message with the signature field cleared and compares (hmac.Equal
is plain constant-time equality of the two byte strings). -/
def VerifySignature (key : List Char) (msg : IncomingMessage) :
    Except ValidationError Unit :=
  if key = [] then .ok ()
  else if msg.signature = [] then .error .missingSignature
  else if msg.signature = calculateSignature key
      (marshalIncoming { msg with signature := [] }) then .ok ()
  else .error .invalidSignature

/-- signMessage (whatsapp_validator.go:325-342): a no-op without a key;
otherwise clears the old signature and attaches the MAC of the cleared
message's serialization.  json.Marshal cannot fail on this struct, so the
Go error path is dead and the model is total. -/
def signMessage (key : List Char) (msg : OutgoingMessage) : OutgoingMessage :=
  if key = [] then msg
  else
    { msg with
      signature := calculateSignature key (marshalOutgoing { msg with signature := [] }) }

/-- validateMessageType (whatsapp_validator.go:173-181). -/
def validateMessageType (t : List Char) : Except ValidationError Unit :=
  if t = str "message" || t = str "status" || t = str "error" ||
      t = str "ping" || t = str "pong" then .ok ()
  else .error (.invalidMessageType t)

/-- validateIncomingMessage (whatsapp_validator.go:183-219): sender present
and well-formed, content or media present, content sanitized in place,
media paths validated, then the signature check. -/
def validateIncomingMessage (key : List Char) (msg : IncomingMessage) :
    Except ValidationError IncomingMessage :=
  if msg.from_ = [] then .error .missingFrom
  else
    match validatePhoneNumber msg.from_ with
    | .error e => .error (.invalidSender e)
    | .ok _ =>
      if msg.content = [] && msg.media = [] then .error .missingContentOrMedia
      else
        match (if msg.content = [] then .ok msg.content
               else sanitizeContent msg.content :
               Except ValidationError (List Char)) with
        | .error e => .error (.contentValidationFailed e)
        | .ok sanitized =>
          let msg1 := { msg with content := sanitized }
          match validateMediaList msg1.media with
          | .error e => .error e
          | .ok _ =>
            match VerifySignature key msg1 with
            | .error e => .error (.signatureVerificationFailed e)
            | .ok _ => .ok msg1

/-- validateIncomingStatus (whatsapp_validator.go:221-242). -/
def validateIncomingStatus (msg : IncomingMessage) :
    Except ValidationError IncomingMessage :=
  if msg.id = [] then .error .statusMissingId
  else if msg.status = [] then .error .statusMissingStatus
  else if msg.status = str "delivered" || msg.status = str "read" ||
      msg.status = str "sent" || msg.status = str "failed" then .ok msg
  else .error (.invalidStatus msg.status)

/-- validateIncomingError (whatsapp_validator.go:244-252). -/
def validateIncomingError (msg : IncomingMessage) :
    Except ValidationError IncomingMessage :=
  if msg.error = [] then .error .errorMissingText
  else if msg.error.length > 500 then .error .errorTextTooLong
  else .ok msg

/-- validateIncomingPingPong (whatsapp_validator.go:254-257). -/
def validateIncomingPingPong (msg : IncomingMessage) :
    Except ValidationError IncomingMessage := .ok msg

/-- ValidateIncoming (whatsapp_validator.go:81-105) after JSON decoding:
the wire bytes have been unmarshalled into the struct (the invalid-JSON
branch is below the level of this model), the type is checked against the
five recognized values and the per-type validator runs.  After the type
check the remaining types are exactly ping and pong, so the if-chain's last
arm is the ping/pong validator and Go's unreachable default is dropped. -/
def ValidateIncoming (key : List Char) (msg : IncomingMessage) :
    Except ValidationError IncomingMessage :=
  match validateMessageType msg.type with
  | .error e => .error e
  | .ok _ =>
    if msg.type = str "message" then validateIncomingMessage key msg
    else if msg.type = str "status" then validateIncomingStatus msg
    else if msg.type = str "error" then validateIncomingError msg
    else validateIncomingPingPong msg

/-- ValidateOutgoing (whatsapp_validator.go:107-144).  The Go function
mutates its argument step by step; the model returns the final mutated
message, with the in-place updates (sanitized content, assigned timestamp)
inlined into the record.  Media validation runs over msg.Media, which the
content mutation does not touch.  time.Now is passed in as the explicit now
argument used when the timestamp is zero. -/
def ValidateOutgoing (key : List Char) (now : Int) (msg : OutgoingMessage) :
    Except ValidationError OutgoingMessage :=
  if !(msg.type = str "message") then .error .outgoingTypeNotMessage
  else
    match validatePhoneNumber msg.to_ with
    | .error e => .error (.invalidRecipient e)
    | .ok _ =>
      match sanitizeContent msg.content with
      | .error e => .error (.contentValidationFailed e)
      | .ok sanitized =>
        match validateMediaList msg.media with
        | .error e => .error e
        | .ok _ =>
          .ok (signMessage key
            (if msg.timestamp = 0 then
              { msg with content := sanitized, timestamp := now }
            else { msg with content := sanitized }))

example : ValidateOutgoing (str "k") 7
    { type := str "message", to_ := str "+1", content := str "hi" } =
    .ok
      { type := str "message", to_ := str "+1", content := str "hi",
        timestamp := 7,
        signature := calculateSignature (str "k")
          (marshalOutgoing
            { type := str "message", to_ := str "+1", content := str "hi",
              timestamp := 7 }) } := by decide

/-- Parsing the serialized bytes of an OutgoingMessage back with
json.Unmarshal into an IncomingMessage: the fields whose json tags match
(type, content, media, timestamp, signature) are populated, the "to" field
has no counterpart in IncomingMessage and is dropped, and every other field
keeps its zero value.  This models json.Unmarshal composed with
json.Marshal across the two schemas, which encoding/json guarantees to be
exactly this field-wise copy. -/
def decodeOutgoingAsIncoming (m : OutgoingMessage) : IncomingMessage :=
  { type := m.type, content := m.content, media := m.media,
    timestamp := m.timestamp, signature := m.signature }

/-- ConnectionRetry (whatsapp_validator.go:350-357). -/
structure ConnectionRetry where
  attempts : Nat
  maxAttempts : Nat
  initialDelay : Nat
  maxDelay : Nat
  currentDelay : Nat
deriving DecidableEq, Repr

/-- NewConnectionRetry (whatsapp_validator.go:360-368): the defaults
max=5 attempts, initial delay 1s, cap 30s. -/
def NewConnectionRetry : ConnectionRetry :=
  { attempts := 0, maxAttempts := MaxReconnectAttempts,
    initialDelay := Second, maxDelay := 30 * Second, currentDelay := Second }

/-- NextDelay (whatsapp_validator.go:371-386): 0 once attempts have reached
the maximum; otherwise return the current delay, bump the attempt counter
and double the current delay up to the cap.  The Go method mutates the
receiver; the model returns the delay with the new state. -/
def NextDelay (r : ConnectionRetry) : Nat × ConnectionRetry :=
  if r.attempts ≥ r.maxAttempts then (0, r)
  else
    let r1 := { r with attempts := r.attempts + 1 }
    let delay := r1.currentDelay
    let doubled := r1.currentDelay * 2
    let capped := if doubled > r1.maxDelay then r1.maxDelay else doubled
    (delay, { r1 with currentDelay := capped })

/-- Reset (whatsapp_validator.go:389-392). -/
def Reset (r : ConnectionRetry) : ConnectionRetry :=
  { r with attempts := 0, currentDelay := r.initialDelay }

/-- ShouldRetry (whatsapp_validator.go:395-397). -/
def ShouldRetry (r : ConnectionRetry) : Bool :=
  r.attempts < r.maxAttempts

/-- GetAttempts (whatsapp_validator.go:400-402). -/
def GetAttempts (r : ConnectionRetry) : Nat := r.attempts

/-- n successive calls to NextDelay: the list of returned delays and the
final state. -/
def runNextDelays : Nat → ConnectionRetry → List Nat × ConnectionRetry
  | 0, r => ([], r)
  | n + 1, r =>
    let step := NextDelay r
    let rest := runNextDelays n step.2
    (step.1 :: rest.1, rest.2)

/-- Outcome of one attemptReconnection invocation. -/
inductive ReconnectionResult where
  | gaveUpMaxAttempts
  | failed
  | succeeded
deriving DecidableEq, Repr

/-- attemptReconnection (whatsapp.go:456-478), one invocation, with the
outcome of the single connect call passed in as connectSucceeds: when
ShouldRetry is false it logs and returns without connecting; otherwise it
consumes NextDelay, sleeps, and calls connect exactly once — on failure it
logs and returns (scheduling nothing further), on success it resets the
retry manager.  The returned Nat counts the connect calls made.  The only
place a new invocation is ever spawned is handleConnectionError
(whatsapp.go:442-453), i.e. a fresh connection error, never this function
itself. -/
def attemptReconnection (r : ConnectionRetry) (connectSucceeds : Bool) :
    ReconnectionResult × ConnectionRetry × Nat :=
  if ShouldRetry r = false then (.gaveUpMaxAttempts, r, 0)
  else
    let r1 := (NextDelay r).2
    if connectSucceeds then (.succeeded, Reset r1, 1)
    else (.failed, r1, 1)

/-- A sequence of n separate connection errors, each handled by
handleConnectionError spawning one attemptReconnection, with every connect
attempt failing: total connect calls made and the final retry state. -/
def errorCascade : Nat → ConnectionRetry → Nat × ConnectionRetry
  | 0, r => (0, r)
  | n + 1, r =>
    let o := attemptReconnection r false
    let rest := errorCascade n o.2.1
    (o.2.2 + rest.1, rest.2)

/-- True iff the character may appear in a URL scheme (RFC 3986 as enforced
by net/url: ALPHA then ALPHA / DIGIT / plus / minus / dot). -/
def isAlphaChar (c : Char) : Bool :=
  ('a' ≤ c && c ≤ 'z') || ('A' ≤ c && c ≤ 'Z')

/-- Scheme characters allowed by net/url after the leading letter. -/
def isSchemeChar (c : Char) : Bool :=
  isAlphaChar c || ('0' ≤ c && c ≤ '9') || c = '+' || c = '-' || c = '.'

/-- The Scheme field url.Parse assigns when it succeeds.  net/url's
getScheme takes the prefix before the first colon when it consists of
letters, digits, plus, minus and dot and starts with a letter (any other
character before a colon means no scheme), and url.Parse then lowercases
it with strings.ToLower — scheme characters are ASCII, so asciiToLower is
exactly that lowering here.  When url.Parse fails the field is never
consulted; the failure itself is the parseErr argument of the gates
below. -/
def urlScheme (u : List Char) : List Char :=
  let pre := u.takeWhile (fun c => !(c = ':'))
  if pre.length < u.length && !(pre = []) && pre.all isSchemeChar &&
      (match pre with | c :: _ => isAlphaChar c | [] => false) then
    pre.map asciiToLower
  else []

/-- validateBridgeURL (whatsapp.go:482-497): reject the empty URL, then
parse it — parseErr carries whether url.Parse fails on the raw URL
(control characters, malformed percent escapes, bad port or host: that
domain lives inside net/url and is taken as an input of the model, like
time.Now) — and finally reject any parsed scheme other than ws and wss.
Both ws and wss pass the same test: the code carries no test-mode or
production flag. -/
def validateBridgeURL (bridgeURL : List Char) (parseErr : Bool) :
    Except ValidationError Unit :=
  if bridgeURL = [] then .error .emptyBridgeURL
  else if parseErr then .error .urlParseError
  else if !(urlScheme bridgeURL = str "wss") && !(urlScheme bridgeURL = str "ws") then
    .error (.invalidScheme (urlScheme bridgeURL))
  else .ok ()

/-- The URL gate of connect (whatsapp.go:300-309): url.Parse the stored
URL, returning its error when it fails (parseErr, as in
validateBridgeURL), then reject parsed schemes other than ws and wss; ws
passes exactly like wss (the comment in the source says ws is for
testing, but no flag enforces that). -/
def connectSchemeGate (u : List Char) (parseErr : Bool) :
    Except ValidationError Unit :=
  if parseErr then .error .urlParseError
  else if !(urlScheme u = str "wss") && !(urlScheme u = str "ws") then
    .error (.invalidScheme (urlScheme u))
  else .ok ()

/-- getHMACKey (whatsapp.go:518-522): unconditionally the empty string (the
source comment defers reading a real key to future configuration work). -/
def getHMACKey : List Char := []

/-- The WhatsAppChannel fields the claims depend on (whatsapp.go:22-39).
The live websocket handle, locks and goroutine bookkeeping are runtime
state outside this model. -/
structure WhatsAppChannel where
  validatorKey : List Char
  retryManager : ConnectionRetry
  url : List Char
  authToken : List Char
  hmacKey : List Char
  pingIntervalNs : Nat
  pongTimeoutNs : Nat
deriving DecidableEq, Repr

/-- NewWhatsAppChannel (whatsapp.go:41-71): validates the bridge URL, then
builds the channel whose validator key is getHMACKey.  extractAuthToken
(whatsapp.go:499-516) only splits the configured URL into a rewritten URL
and a bearer token and never touches the key; it is abstracted as the
pre-split (url, authToken) pair passed in.  parseErr is url.Parse's
outcome on the configured URL, as in validateBridgeURL. -/
def NewWhatsAppChannel (cfgBridgeURL url authToken : List Char)
    (parseErr : Bool) : Except ValidationError WhatsAppChannel :=
  match validateBridgeURL cfgBridgeURL parseErr with
  | .error e => .error e
  | .ok _ =>
    .ok { validatorKey := getHMACKey, retryManager := NewConnectionRetry,
          url := url, authToken := authToken, hmacKey := getHMACKey,
          pingIntervalNs := 30 * Second, pongTimeoutNs := 10 * Second }

/-- handlePing (whatsapp.go:271-297): build a pong frame carrying the
current timestamp, run it through ValidateOutgoing, marshal it and write
it.  Returns the bytes written, or none when validation (or, in Go, the
marshal) fails and the function logs and returns without writing. -/
def handlePing (key : List Char) (now : Int) : Option (List Char) :=
  let pong : OutgoingMessage := { type := str "pong", timestamp := now }
  match ValidateOutgoing key now pong with
  | .error _ => none
  | .ok validated => some (marshalOutgoing validated)

example : (runNextDelays 6 NewConnectionRetry).1 =
    [Second, 2 * Second, 4 * Second, 8 * Second, 16 * Second, 0] := by decide
example : handlePing (str "k") 7 = none := by decide
example : validateBridgeURL (str "ws://localhost:3001") false = .ok () := by decide
example : validateBridgeURL (str "http://x") false =
    .error (.invalidScheme (str "http")) := by decide
example : validateBridgeURL (str "WS://x") false = .ok () := by decide
example : validateBridgeURL (str "ws://h/%zz") true = .error .urlParseError := by decide

/-- signMessage never changes any field except the signature. -/
theorem signMessage_fields (key : List Char) (m : OutgoingMessage) :
    (signMessage key m).type = m.type ∧ (signMessage key m).to_ = m.to_ ∧
    (signMessage key m).content = m.content ∧
    (signMessage key m).media = m.media ∧
    (signMessage key m).timestamp = m.timestamp := by
  unfold signMessage
  split
  · exact ⟨rfl, rfl, rfl, rfl, rfl⟩
  · exact ⟨rfl, rfl, rfl, rfl, rfl⟩

/-- Claim C1: the code evaluated at the failing input.  On an inbound ping,
handlePing builds a pong frame and validates it with ValidateOutgoing, but
ValidateOutgoing rejects every message whose type is not "message" — so the
pong always fails validation and handlePing writes nothing, for every
signing key and every timestamp.  No pong frame is ever sent. -/
theorem C1_ping_reply_never_sent (key : List Char) (now : Int) :
    ValidateOutgoing key now { type := str "pong", timestamp := now } =
      .error .outgoingTypeNotMessage ∧
    handlePing key now = none :=
  ⟨rfl, rfl⟩

/-- Claim C4, counterexample: the plaintext bridge URL ws://localhost:3001
(the default in the configuration and the tests) — a URL without control
characters or percent escapes, on which url.Parse succeeds — is accepted
by both validateBridgeURL and the URL gate of connect, although no
test-mode opt-in exists anywhere in the channel (there is no such
configuration field), refuting that ws:// without an opt-in is rejected. -/
theorem C4_plaintext_counterexample :
    validateBridgeURL (str "ws://localhost:3001") false = .ok () ∧
    connectSchemeGate (str "ws://localhost:3001") false = .ok () := by decide

/-- Claim C4 as amended: connection establishment accepts a bridge URL
exactly when it is non-empty (checked by validateBridgeURL only),
url.Parse succeeds on it, and the parsed, lowercased scheme is ws or wss —
ws passes the very same test as wss, with no test-mode opt-in anywhere in
the code, so a parseable plaintext ws:// URL is never rejected. -/
theorem C4_scheme_gate_characterization (u : List Char) (parseErr : Bool) :
    (validateBridgeURL u parseErr = .ok () ↔
      (¬ u = [] ∧ parseErr = false ∧
        (urlScheme u = str "ws" ∨ urlScheme u = str "wss"))) ∧
    (connectSchemeGate u parseErr = .ok () ↔
      (parseErr = false ∧
        (urlScheme u = str "ws" ∨ urlScheme u = str "wss"))) := by
  by_cases h1 : u = []
  · subst h1
    cases parseErr <;> decide
  · cases parseErr <;>
      by_cases h2 : urlScheme u = str "wss" <;>
        by_cases h3 : urlScheme u = str "ws" <;>
          simp [validateBridgeURL, connectSchemeGate, h1, h2, h3]

/-- Claim C9: every channel built by NewWhatsAppChannel carries the empty
HMAC key (getHMACKey is unconditionally empty), hence its validator skips
signature verification for every inbound message and attaches no signature
to any outbound message. -/
theorem C9_constructor_empty_key (cfgURL url tok : List Char)
    (parseErr : Bool) (ch : WhatsAppChannel)
    (h : NewWhatsAppChannel cfgURL url tok parseErr = .ok ch) :
    getHMACKey = [] ∧ ch.validatorKey = [] ∧ ch.hmacKey = [] ∧
    (∀ msg : IncomingMessage, VerifySignature ch.validatorKey msg = .ok ()) ∧
    (∀ m : OutgoingMessage, signMessage ch.validatorKey m = m) := by
  unfold NewWhatsAppChannel at h
  split at h
  · exact absurd h (by simp)
  · cases h
    refine ⟨rfl, rfl, rfl, fun msg => rfl, fun m => rfl⟩

/-- Witness for C9 at a concrete configuration. -/
theorem C9_constructor_empty_key_witness :
    getHMACKey = [] ∧
    ({ validatorKey := [], retryManager := NewConnectionRetry,
       url := str "wss://bridge.example", authToken := [], hmacKey := [],
       pingIntervalNs := 30 * Second, pongTimeoutNs := 10 * Second } :
         WhatsAppChannel).validatorKey = [] ∧
    ({ validatorKey := [], retryManager := NewConnectionRetry,
       url := str "wss://bridge.example", authToken := [], hmacKey := [],
       pingIntervalNs := 30 * Second, pongTimeoutNs := 10 * Second } :
         WhatsAppChannel).hmacKey = [] ∧
    (∀ msg : IncomingMessage, VerifySignature
      ({ validatorKey := [], retryManager := NewConnectionRetry,
         url := str "wss://bridge.example", authToken := [], hmacKey := [],
         pingIntervalNs := 30 * Second, pongTimeoutNs := 10 * Second } :
           WhatsAppChannel).validatorKey msg = .ok ()) ∧
    (∀ m : OutgoingMessage, signMessage
      ({ validatorKey := [], retryManager := NewConnectionRetry,
         url := str "wss://bridge.example", authToken := [], hmacKey := [],
         pingIntervalNs := 30 * Second, pongTimeoutNs := 10 * Second } :
           WhatsAppChannel).validatorKey m = m) :=
  C9_constructor_empty_key (str "wss://bridge.example")
    (str "wss://bridge.example") [] false _ (by decide)

/-- Claim C10: outbound validation imposes no content-or-media requirement.
A type "message" frame whose recipient is a 1-50 character identifier and
whose content and media are both empty validates successfully, and the zero
timestamp is replaced by the current time. -/
theorem C10_outgoing_without_content (key : List Char) (now : Int)
    (dest sig0 : List Char) (h1 : ¬ dest = []) (h2 : dest.length ≤ 50) :
    ∃ out : OutgoingMessage,
      ValidateOutgoing key now
        { type := str "message", to_ := dest, content := [], media := [],
          timestamp := 0, signature := sig0 } = .ok out ∧
      out.timestamp = now ∧ out.to_ = dest ∧ out.content = [] ∧
      out.media = [] := by
  have hlen : 0 < dest.length := List.length_pos.mpr h1
  have hv : validatePhoneNumber dest = .ok () := by
    unfold validatePhoneNumber
    rw [if_neg h1, if_neg]
    simp only [decide_eq_true_eq, Bool.or_eq_true, not_or]
    omega
  refine ⟨signMessage key
    { type := str "message", to_ := dest, content := [], media := [],
      timestamp := now, signature := sig0 }, ?_, ?_⟩
  · unfold ValidateOutgoing
    rw [hv]
    have hs : sanitizeContent ([] : List Char) = .ok [] := by decide
    rw [hs]
    rfl
  · have hf := signMessage_fields key
      { type := str "message", to_ := dest, content := [], media := [],
        timestamp := now, signature := sig0 }
    exact ⟨hf.2.2.2.2, hf.2.1, hf.2.2.1, hf.2.2.2.1⟩

/-- Witness for C10 at a concrete recipient and time. -/
theorem C10_outgoing_without_content_witness :
    ∃ out : OutgoingMessage,
      ValidateOutgoing (str "k") 5
        { type := str "message", to_ := str "+1", content := [], media := [],
          timestamp := 0, signature := [] } = .ok out ∧
      out.timestamp = 5 ∧ out.to_ = str "+1" ∧ out.content = [] ∧
      out.media = [] :=
  C10_outgoing_without_content (str "k") 5 (str "+1") [] (by decide) (by decide)

/-- NextDelay never changes the policy parameters. -/
theorem nextDelay_params (r : ConnectionRetry) :
    ((NextDelay r).2).maxAttempts = r.maxAttempts ∧
    ((NextDelay r).2).initialDelay = r.initialDelay ∧
    ((NextDelay r).2).maxDelay = r.maxDelay := by
  unfold NextDelay
  split
  · exact ⟨rfl, rfl, rfl⟩
  · exact ⟨rfl, rfl, rfl⟩

/-- Once the attempt budget is exhausted, NextDelay returns 0 and leaves
the state untouched. -/
theorem nextDelay_exhausted (r : ConnectionRetry)
    (h : r.maxAttempts ≤ r.attempts) : NextDelay r = (0, r) := by
  unfold NextDelay
  rw [if_pos h]

/-- From an exhausted state, every further call returns 0. -/
theorem runNextDelays_exhausted (n : Nat) (r : ConnectionRetry)
    (h : r.maxAttempts ≤ r.attempts) :
    runNextDelays n r = (List.replicate n 0, r) := by
  induction n with
  | zero => rfl
  | succ n ih =>
    simp only [runNextDelays, nextDelay_exhausted r h, ih, List.replicate]

/-- Policy parameters are invariant under any number of NextDelay calls. -/
theorem runNextDelays_params (n : Nat) (r : ConnectionRetry) :
    ((runNextDelays n r).2).maxAttempts = r.maxAttempts ∧
    ((runNextDelays n r).2).initialDelay = r.initialDelay ∧
    ((runNextDelays n r).2).maxDelay = r.maxDelay := by
  induction n generalizing r with
  | zero => exact ⟨rfl, rfl, rfl⟩
  | succ n ih =>
    have h1 := nextDelay_params r
    have h2 := ih (NextDelay r).2
    simp only [runNextDelays]
    exact ⟨h2.1.trans h1.1, h2.2.1.trans h1.2.1, h2.2.2.trans h1.2.2⟩

/-- The attempt counter after n calls, as long as it starts within the
budget: it grows by one per call and saturates at the maximum. -/
theorem runNextDelays_attempts (n : Nat) (r : ConnectionRetry)
    (hle : r.attempts ≤ r.maxAttempts) :
    ((runNextDelays n r).2).attempts = min (r.attempts + n) r.maxAttempts := by
  induction n generalizing r with
  | zero =>
    simp only [runNextDelays]
    omega
  | succ n ih =>
    by_cases h : r.maxAttempts ≤ r.attempts
    · have hfix := nextDelay_exhausted r h
      simp only [runNextDelays, hfix]
      have := ih r hle
      omega
    · have ha : ((NextDelay r).2).attempts = r.attempts + 1 := by
        unfold NextDelay
        rw [if_neg h]
      have hm := (nextDelay_params r).1
      have hle1 : ((NextDelay r).2).attempts ≤ ((NextDelay r).2).maxAttempts := by
        omega
      have := ih (NextDelay r).2 hle1
      simp only [runNextDelays]
      omega

/-- Claim C5: with the default parameters, successive NextDelay calls yield
exactly 1s, 2s, 4s, 8s, 16s; every call from the sixth onward returns 0;
Reset after any number of calls restores the fresh defaults, so the same
sequence restarts; and ShouldRetry holds exactly while fewer than five
attempts have been consumed. -/
theorem C5_retry_delay_sequence :
    (runNextDelays 5 NewConnectionRetry).1 =
      [Second, 2 * Second, 4 * Second, 8 * Second, 16 * Second] ∧
    (∀ n : Nat, (runNextDelays n (runNextDelays 5 NewConnectionRetry).2).1 =
      List.replicate n 0) ∧
    (∀ n : Nat, Reset (runNextDelays n NewConnectionRetry).2 =
      NewConnectionRetry) ∧
    (runNextDelays 5 (Reset (runNextDelays 9 NewConnectionRetry).2)).1 =
      [Second, 2 * Second, 4 * Second, 8 * Second, 16 * Second] ∧
    (∀ n : Nat, ShouldRetry (runNextDelays n NewConnectionRetry).2 =
      decide (n < 5)) := by
  refine ⟨by decide, ?_, ?_, by decide, ?_⟩
  · intro n
    have h : ((runNextDelays 5 NewConnectionRetry).2).maxAttempts ≤
        ((runNextDelays 5 NewConnectionRetry).2).attempts := by decide
    rw [runNextDelays_exhausted n _ h]
  · intro n
    obtain ⟨hm, hi, hx⟩ := runNextDelays_params n NewConnectionRetry
    cases hr : (runNextDelays n NewConnectionRetry).2 with
    | mk a m i x c =>
      rw [hr] at hm hi hx
      simp only at hm hi hx
      simp [Reset, NewConnectionRetry, hm, hi, hx]
  · intro n
    rcases Nat.lt_or_ge n 5 with h | h
    · interval_cases n <;> decide
    · obtain ⟨k, rfl⟩ : ∃ k, n = 5 + k := ⟨n - 5, by omega⟩
      have hle : NewConnectionRetry.attempts ≤ NewConnectionRetry.maxAttempts := by
        decide
      have ha := runNextDelays_attempts (5 + k) NewConnectionRetry hle
      have hm := (runNextDelays_params (5 + k) NewConnectionRetry).1
      have h0 : NewConnectionRetry.attempts = 0 := rfl
      have h5 : NewConnectionRetry.maxAttempts = 5 := rfl
      unfold ShouldRetry
      rw [ha, hm, h0, h5, decide_eq_decide]
      omega

/-- One invocation of attemptReconnection with a failing connect leaves the
retry state exactly where NextDelay leaves it (when the budget is already
exhausted, NextDelay is the identity, matching the early return). -/
theorem attemptReconnection_failed_state (r : ConnectionRetry) :
    (attemptReconnection r false).2.1 = (NextDelay r).2 := by
  unfold attemptReconnection
  by_cases h : ShouldRetry r = false
  · rw [if_pos h]
    have hge : r.maxAttempts ≤ r.attempts := by
      unfold ShouldRetry at h
      simpa using h
    rw [nextDelay_exhausted r hge]
  · rw [if_neg h]
    rfl

/-- Across n separate connection errors whose reconnection attempts all
fail, the total number of connect calls is bounded by the remaining attempt
budget, and the retry state evolves exactly as n NextDelay calls. -/
theorem errorCascade_spec (n : Nat) (r : ConnectionRetry)
    (hle : r.attempts ≤ r.maxAttempts) :
    (errorCascade n r).1 = min n (r.maxAttempts - r.attempts) ∧
    (errorCascade n r).2 = (runNextDelays n r).2 := by
  induction n generalizing r with
  | zero => exact ⟨by simp [errorCascade], rfl⟩
  | succ n ih =>
    have hstate := attemptReconnection_failed_state r
    by_cases h : ShouldRetry r = false
    · have hge : r.maxAttempts ≤ r.attempts := by
        unfold ShouldRetry at h
        simpa using h
      have hcount : (attemptReconnection r false).2.2 = 0 := by
        unfold attemptReconnection
        rw [if_pos h]
      have hfix := nextDelay_exhausted r hge
      have := ih r hle
      simp only [errorCascade, runNextDelays, hstate, hfix, hcount]
      constructor
      · omega
      · exact this.2
    · have hlt : r.attempts < r.maxAttempts := by
        unfold ShouldRetry at h
        simpa using h
      have hcount : (attemptReconnection r false).2.2 = 1 := by
        unfold attemptReconnection
        rw [if_neg h]
        simp
      have ha : ((NextDelay r).2).attempts = r.attempts + 1 := by
        unfold NextDelay
        rw [if_neg (by omega)]
      have hm := (nextDelay_params r).1
      have hle1 : ((NextDelay r).2).attempts ≤ ((NextDelay r).2).maxAttempts := by
        omega
      have := ih (NextDelay r).2 hle1
      simp only [errorCascade, runNextDelays, hstate, hcount]
      constructor
      · omega
      · exact this.2

/-- Claim C6, counterexample: from a fresh policy, one connection error
with a failing reconnect performs exactly one connect attempt and
terminates with the policy far from exhausted (ShouldRetry still true) —
the invocation neither retried until success nor until the maximum of 5
attempts was consumed, because a failed attempt schedules nothing. -/
theorem C6_reconnection_counterexample :
    (attemptReconnection NewConnectionRetry false).1 = .failed ∧
    (attemptReconnection NewConnectionRetry false).2.2 = 1 ∧
    ShouldRetry (attemptReconnection NewConnectionRetry false).2.1 = true ∧
    GetAttempts (attemptReconnection NewConnectionRetry false).2.1 = 1 := by
  decide

/-- Claim C6 as amended: each connection error triggers at most one connect
attempt — none at all once the budget is exhausted; a successful attempt
resets the policy to zero attempts; a failed attempt merely advances the
retry state and schedules nothing further, so the five attempts of the
budget are only consumed across five separate connection errors, after
which the channel stays degraded with no further connect calls. -/
theorem C6_reconnection_per_error (r : ConnectionRetry) (b : Bool) :
    (attemptReconnection r b).2.2 = (if ShouldRetry r = true then 1 else 0) ∧
    attemptReconnection r true =
      (if ShouldRetry r = true then (.succeeded, Reset (NextDelay r).2, 1)
       else (.gaveUpMaxAttempts, r, 0)) ∧
    attemptReconnection r false =
      (if ShouldRetry r = true then (.failed, (NextDelay r).2, 1)
       else (.gaveUpMaxAttempts, r, 0)) ∧
    GetAttempts (Reset (NextDelay r).2) = 0 ∧
    (∀ n : Nat, (errorCascade n NewConnectionRetry).1 = min n 5) ∧
    (∀ n : Nat, ShouldRetry (errorCascade n NewConnectionRetry).2 =
      decide (n < 5)) := by
  have hcasc : ∀ n : Nat, (errorCascade n NewConnectionRetry).1 = min n 5 ∧
      (errorCascade n NewConnectionRetry).2 =
        (runNextDelays n NewConnectionRetry).2 := by
    intro n
    have h := errorCascade_spec n NewConnectionRetry (by decide)
    simpa [NewConnectionRetry, MaxReconnectAttempts] using h
  refine ⟨?_, ?_, ?_, rfl, fun n => (hcasc n).1, ?_⟩
  · unfold attemptReconnection
    cases h : ShouldRetry r <;> cases b <;> simp [h]
  · unfold attemptReconnection
    cases h : ShouldRetry r <;> simp [h]
  · unfold attemptReconnection
    cases h : ShouldRetry r <;> simp [h]
  · intro n
    rw [(hcasc n).2]
    rcases Nat.lt_or_ge n 5 with h | h
    · interval_cases n <;> decide
    · obtain ⟨k, rfl⟩ : ∃ k, n = 5 + k := ⟨n - 5, by omega⟩
      have ha := runNextDelays_attempts (5 + k) NewConnectionRetry (by decide)
      have hm := (runNextDelays_params (5 + k) NewConnectionRetry).1
      have h0 : NewConnectionRetry.attempts = 0 := rfl
      have h5 : NewConnectionRetry.maxAttempts = 5 := rfl
      unfold ShouldRetry
      rw [ha, hm, h0, h5, decide_eq_decide]
      omega

/-- An error returned by the media loop is always an invalid-media-path
wrap. -/
theorem validateMediaList_error (l : List (List Char)) (e : ValidationError)
    (h : validateMediaList l = .error e) :
    ∃ e2, e = .invalidMediaPath e2 := by
  induction l with
  | nil => exact absurd h (by simp [validateMediaList])
  | cons p rest ih =>
    unfold validateMediaList at h
    cases hp : validateMediaPath p with
    | error e3 =>
      rw [hp] at h
      injection h with h2
      exact ⟨e3, h2.symm⟩
    | ok u =>
      rw [hp] at h
      exact ih h

/-- Exact characterization of the content-too-long failure of inbound
message validation: it occurs precisely when the sender checks pass, the
content is non-empty and the RAW content exceeds the limit — the length
gate of sanitizeContent runs before any stripping or trimming. -/
theorem validateIncomingMessage_contentTooLong (key : List Char)
    (msg : IncomingMessage) :
    validateIncomingMessage key msg =
      .error (.contentValidationFailed .contentTooLong) ↔
    (¬ msg.from_ = [] ∧ validatePhoneNumber msg.from_ = .ok () ∧
      ¬ msg.content = [] ∧ MaxContentLength < msg.content.length) := by
  unfold validateIncomingMessage
  by_cases h1 : msg.from_ = []
  · simp [h1]
  · cases h2 : validatePhoneNumber msg.from_ with
    | error e => simp [h1, h2]
    | ok u =>
      cases u
      by_cases h3 : msg.content = []
      · by_cases h4 : msg.media = []
        · simp [h1, h2, h3, h4]
        · cases h5 : validateMediaList msg.media with
          | error e =>
            obtain ⟨e2, rfl⟩ := validateMediaList_error msg.media e h5
            simp [h1, h2, h3, h4, h5]
          | ok v =>
            cases v
            cases h6 : VerifySignature key
                { msg with content := ([] : List Char) } with
            | error e => simp [h1, h2, h3, h4, h5, h6]
            | ok w =>
              cases w
              simp [h1, h2, h3, h4, h5, h6]
      · cases hs : sanitizeContent msg.content with
        | error e =>
          have he : e = .contentTooLong ∧
              MaxContentLength < msg.content.length := by
            unfold sanitizeContent at hs
            by_cases h6 : msg.content.length > MaxContentLength
            · rw [if_pos h6] at hs
              injection hs with h7
              exact ⟨h7.symm, h6⟩
            · rw [if_neg h6] at hs
              exact absurd hs (by simp)
          obtain ⟨rfl, h7⟩ := he
          simp [h1, h2, h3, hs, h7]
        | ok s =>
          have hlen2 : ¬ MaxContentLength < msg.content.length := by
            unfold sanitizeContent at hs
            by_cases h6 : msg.content.length > MaxContentLength
            · rw [if_pos h6] at hs
              exact absurd hs (by simp)
            · exact h6
          cases h7 : validateMediaList msg.media with
          | error e =>
            obtain ⟨e2, rfl⟩ := validateMediaList_error msg.media e h7
            simp [h1, h2, h3, hs, h7, hlen2]
          | ok v =>
            cases v
            cases h8 : VerifySignature key { msg with content := s } with
            | error e => simp [h1, h2, h3, hs, h7, h8, hlen2]
            | ok w =>
              cases w
              simp [h1, h2, h3, hs, h7, h8, hlen2]

/-- For a type "message" frame, ValidateIncoming is exactly inbound message
validation. -/
theorem ValidateIncoming_message_dispatch (key : List Char)
    (msg : IncomingMessage) (ht : msg.type = str "message") :
    ValidateIncoming key msg = validateIncomingMessage key msg := by
  unfold ValidateIncoming
  rw [ht]
  rfl

/-- A content that is over-long raw but empty after sanitization: one
letter followed by 4096 NUL bytes. -/
def c3content : List Char := 'a' :: List.replicate 4096 (Char.ofNat 0)

/-- The frame carrying c3content. -/
def c3msg : IncomingMessage :=
  { type := str "message", from_ := str "+1", content := c3content }

/-- Filtering a replicated character away yields the empty list. -/
theorem filter_replicate_none {p : Char → Bool} {c : Char} (h : p c = false)
    (n : Nat) : (List.replicate n c).filter p = [] := by
  induction n with
  | zero => rfl
  | succ n ih => simp [List.replicate_succ, List.filter_cons, h, ih]

set_option maxRecDepth 10000 in
/-- Claim C3, counterexample: ValidateIncoming rejects c3msg with the
content-too-long error although its content sanitizes to a single
character, far below the 4096 limit — the length check applies to the raw
content, not the sanitized one. -/
theorem C3_length_counterexample :
    ValidateIncoming [] c3msg =
      .error (.contentValidationFailed .contentTooLong) ∧
    (sanitizeTransform c3msg.content).length ≤ MaxContentLength := by
  have h1 : c3msg.content.length = 4097 := by
    show ('a' :: List.replicate 4096 (Char.ofNat 0)).length = 4097
    rw [List.length_cons, List.length_replicate]
  constructor
  · have hd : ValidateIncoming [] c3msg = validateIncomingMessage [] c3msg :=
      ValidateIncoming_message_dispatch [] c3msg rfl
    rw [hd, validateIncomingMessage_contentTooLong]
    refine ⟨?_, by decide, ?_, ?_⟩
    · show ¬ (str "+1") = []
      decide
    · show ¬ ('a' :: List.replicate 4096 (Char.ofNat 0)) = []
      exact List.cons_ne_nil _ _
    · rw [h1]
      decide
  · have h2 : sanitizeTransform c3msg.content = ['a'] := by
      unfold sanitizeTransform
      have hc : c3msg.content = 'a' :: List.replicate 4096 (Char.ofNat 0) := rfl
      rw [hc, List.filter_cons]
      rw [filter_replicate_none (by decide : (fun c =>
        !(isStrippedCtl c)) (Char.ofNat 0) = false)]
      decide
    rw [h2]
    decide

/-- Claim C3 as amended: for a type "message" frame whose sender passes the
identifier checks, ValidateIncoming fails with the content-too-long error
if and only if the RAW content (before stripping and trimming) exceeds 4096
characters; the length gate of sanitizeContent runs before sanitization, so
content that would shrink below the limit is still rejected. -/
theorem C3_length_gate_presanitization (key : List Char)
    (msg : IncomingMessage) (ht : msg.type = str "message")
    (hf : ¬ msg.from_ = []) (hlen : msg.from_.length ≤ 50) :
    (ValidateIncoming key msg =
      .error (.contentValidationFailed .contentTooLong) ↔
      MaxContentLength < msg.content.length) := by
  have hv : validatePhoneNumber msg.from_ = .ok () := by
    unfold validatePhoneNumber
    rw [if_neg hf, if_neg]
    simp only [decide_eq_true_eq, Bool.or_eq_true, not_or]
    have := List.length_pos.mpr hf
    omega
  rw [ValidateIncoming_message_dispatch key msg ht,
    validateIncomingMessage_contentTooLong]
  constructor
  · rintro ⟨-, -, -, h⟩
    exact h
  · intro h
    refine ⟨hf, hv, ?_, h⟩
    intro hc
    rw [hc] at h
    simp [MaxContentLength] at h

/-- Witness for C3 at a concrete frame. -/
theorem C3_length_gate_presanitization_witness :
    (ValidateIncoming []
      { type := str "message", from_ := str "+1", content := str "abc" } =
      .error (.contentValidationFailed .contentTooLong) ↔
      MaxContentLength <
        ({ type := str "message", from_ := str "+1", content := str "abc" } :
          IncomingMessage).content.length) :=
  C3_length_gate_presanitization []
    { type := str "message", from_ := str "+1", content := str "abc" }
    (by decide) (by decide) (by decide)

/-- The first element surviving dropWhile fails the predicate. -/
theorem dropWhile_head_not (p : Char → Bool) (l : List Char) (a : Char)
    (h : (l.dropWhile p).head? = some a) : p a = false := by
  induction l with
  | nil => simp [List.dropWhile] at h
  | cons x xs ih =>
    rw [List.dropWhile_cons] at h
    by_cases hx : p x = true
    · rw [if_pos hx] at h
      exact ih h
    · rw [if_neg hx] at h
      simp only [List.head?_cons, Option.some.injEq] at h
      rw [← h]
      simpa using hx

/-- dropWhile is the identity when the head already fails the predicate. -/
theorem dropWhile_eq_self_of_head (p : Char → Bool) (l : List Char)
    (h : ∀ a, l.head? = some a → p a = false) : l.dropWhile p = l := by
  cases l with
  | nil => rfl
  | cons x xs =>
    rw [List.dropWhile_cons, if_neg]
    simp [h x rfl]

/-- The head of a trimmed list is not whitespace. -/
theorem trimSpace_head (l : List Char) (a : Char)
    (h : (trimSpace l).head? = some a) : goIsSpace a = false := by
  unfold trimSpace at h
  rw [List.head?_reverse] at h
  have hne : (l.dropWhile goIsSpace).reverse.dropWhile goIsSpace ≠ [] := by
    intro hnil
    rw [hnil] at h
    simp at h
  obtain ⟨t, hts⟩ := List.dropWhile_suffix
    (l := (l.dropWhile goIsSpace).reverse) (p := goIsSpace)
  have h2 : ((l.dropWhile goIsSpace).reverse).getLast? = some a := by
    rw [← hts, List.getLast?_append_of_ne_nil t hne]
    exact h
  rw [List.getLast?_reverse] at h2
  exact dropWhile_head_not goIsSpace l a h2

/-- The last element of a trimmed list is not whitespace. -/
theorem trimSpace_getLast (l : List Char) (a : Char)
    (h : (trimSpace l).getLast? = some a) : goIsSpace a = false := by
  unfold trimSpace at h
  rw [List.getLast?_reverse] at h
  exact dropWhile_head_not goIsSpace (l.dropWhile goIsSpace).reverse a h

/-- Trimming is idempotent. -/
theorem trimSpace_trimSpace (l : List Char) :
    trimSpace (trimSpace l) = trimSpace l := by
  have h1 : (trimSpace l).dropWhile goIsSpace = trimSpace l :=
    dropWhile_eq_self_of_head _ _ (fun a ha => trimSpace_head l a ha)
  have h2 : (trimSpace l).reverse.dropWhile goIsSpace = (trimSpace l).reverse :=
    dropWhile_eq_self_of_head _ _ (fun a ha => by
      rw [List.head?_reverse] at ha
      exact trimSpace_getLast l a ha)
  show (((trimSpace l).dropWhile goIsSpace).reverse.dropWhile goIsSpace).reverse
    = trimSpace l
  rw [h1, h2, List.reverse_reverse]

/-- Trimming only removes elements. -/
theorem mem_trimSpace (l : List Char) (a : Char) (h : a ∈ trimSpace l) :
    a ∈ l := by
  unfold trimSpace at h
  rw [List.mem_reverse] at h
  have h2 := (List.dropWhile_sublist goIsSpace).subset h
  rw [List.mem_reverse] at h2
  exact (List.dropWhile_sublist goIsSpace).subset h2

/-- A successful sanitizeContent returns exactly the strip-and-trim
transformation. -/
theorem sanitizeContent_ok_eq (c r : List Char)
    (h : sanitizeContent c = .ok r) : r = sanitizeTransform c := by
  unfold sanitizeContent at h
  by_cases h6 : c.length > MaxContentLength
  · rw [if_pos h6] at h
    exact absurd h (by simp)
  · rw [if_neg h6] at h
    simp only [Except.ok.injEq] at h
    exact h.symm

/-- Claim C7: every type "message" frame that ValidateIncoming accepts
comes back with a content containing no character below 0x20 other than
tab, line feed and carriage return, and carrying no surrounding whitespace
(trimming it again changes nothing). -/
theorem C7_sanitized_content_clean (key : List Char)
    (msg msg2 : IncomingMessage) (ht : msg.type = str "message")
    (h : ValidateIncoming key msg = .ok msg2) :
    (∀ x ∈ msg2.content, 32 ≤ x.toNat ∨ x = '\t' ∨ x = '\n' ∨ x = '\r') ∧
    trimSpace msg2.content = msg2.content := by
  rw [ValidateIncoming_message_dispatch key msg ht] at h
  have hma : msg2.content = [] ∨ msg2.content = sanitizeTransform msg.content := by
    unfold validateIncomingMessage at h
    by_cases h1 : msg.from_ = []
    · simp [h1] at h
    · cases h2 : validatePhoneNumber msg.from_ with
      | error e => simp [h1, h2] at h
      | ok u =>
        cases u
        by_cases h3 : msg.content = []
        · by_cases h4 : msg.media = []
          · simp [h1, h2, h3, h4] at h
          · cases h5 : validateMediaList msg.media with
            | error e => simp [h1, h2, h3, h4, h5] at h
            | ok v =>
              cases v
              cases h6 : VerifySignature key
                  { msg with content := ([] : List Char) } with
              | error e => simp [h1, h2, h3, h4, h5, h6] at h
              | ok w =>
                cases w
                simp [h1, h2, h3, h4, h5, h6] at h
                left
                rw [← h]
        · cases hs : sanitizeContent msg.content with
          | error e => simp [h1, h2, h3, hs] at h
          | ok s =>
            have hseq : s = sanitizeTransform msg.content :=
              sanitizeContent_ok_eq _ _ hs
            cases h7 : validateMediaList msg.media with
            | error e => simp [h1, h2, h3, hs, h7] at h
            | ok v =>
              cases v
              cases h8 : VerifySignature key { msg with content := s } with
              | error e => simp [h1, h2, h3, hs, h7, h8] at h
              | ok w =>
                cases w
                simp [h1, h2, h3, hs, h7, h8] at h
                right
                rw [← h, hseq]
  rcases hma with hc | hc
  · rw [hc]
    exact ⟨fun x hx => absurd hx (List.not_mem_nil x), rfl⟩
  · rw [hc]
    constructor
    · intro x hx
      have hx2 := mem_trimSpace _ _ hx
      have hx3 := (List.mem_filter.mp hx2).1
      have hx4 := (List.mem_filter.mp hx3).2
      have hx5 : isStrippedCtl x = false := by
        simpa using hx4
      have hx6 : ¬ (x.toNat < 32 ∧ ¬ x = '\n' ∧ ¬ x = '\r' ∧ ¬ x = '\t') := by
        rintro ⟨ha, hb, hc, hd⟩
        have htrue : isStrippedCtl x = true := by
          unfold isStrippedCtl
          simp [ha, hb, hc, hd]
        rw [htrue] at hx5
        cases hx5
      rcases Nat.lt_or_ge x.toNat 32 with hlt | hge
      · by_cases hnl : x = '\n'
        · exact Or.inr (Or.inr (Or.inl hnl))
        · by_cases hcr : x = '\r'
          · exact Or.inr (Or.inr (Or.inr hcr))
          · by_cases htab : x = '\t'
            · exact Or.inr (Or.inl htab)
            · exact absurd ⟨hlt, hnl, hcr, htab⟩ hx6
      · exact Or.inl hge
    · unfold sanitizeTransform
      exact trimSpace_trimSpace _

/-- Witness for C7 at a concrete frame whose content carries a control
character and surrounding whitespace. -/
theorem C7_sanitized_content_clean_witness :
    (∀ x ∈ ({ type := str "message", from_ := str "+1", content := str "hi" } : IncomingMessage).content,
      32 ≤ x.toNat ∨ x = '\t' ∨ x = '\n' ∨ x = '\r') ∧
    trimSpace ({ type := str "message", from_ := str "+1", content := str "hi" } : IncomingMessage).content =
      ({ type := str "message", from_ := str "+1", content := str "hi" } : IncomingMessage).content :=
  C7_sanitized_content_clean []
    { type := str "message", from_ := str "+1", content := ' ' :: Char.ofNat 1 :: str "hi " }
    { type := str "message", from_ := str "+1", content := str "hi" }
    (by decide) (by decide)

/-- The spec notion refuted by C8: the path contains a parent-directory
traversal SEGMENT, i.e. a ".." bounded by the start or a slash on the left
and by the end or a slash on the right. -/
def TraversalSegment (path : List Char) : Prop :=
  ∃ l1 l2, path = l1 ++ '.' :: '.' :: l2 ∧
    (l1 = [] ∨ l1.getLast? = some '/') ∧
    (l2 = [] ∨ l2.head? = some '/')

/-- Any string containing ".." satisfies the substring check. -/
theorem containsDotDot_append (l1 l2 : List Char) :
    containsDotDot (l1 ++ '.' :: '.' :: l2) = true := by
  induction l1 with
  | nil => rfl
  | cons c t ih =>
    simp only [List.cons_append, containsDotDot, List.append_eq, ih,
      Bool.or_true]

/-- The path of the C8 counterexample has no traversal segment: its only
".." occurrence sits strictly inside the single file-name segment. -/
theorem c8path_no_traversal : ¬ TraversalSegment (str "a..b.png") := by
  rintro ⟨l1, l2, heq, hb1, hb2⟩
  have hL : (str "a..b.png").length = 8 := by decide
  have hlen : l1.length + (2 + l2.length) = 8 := by
    have h2 := congrArg List.length heq
    rw [hL] at h2
    simp [List.length_append] at h2
    omega
  have hc1 : (str "a..b.png")[l1.length]? = some '.' := by
    rw [heq, List.getElem?_append_right (le_refl _)]
    simp
  have hc2 : (str "a..b.png")[l1.length + 1]? = some '.' := by
    rw [heq, List.getElem?_append_right (by omega)]
    have h3 : l1.length + 1 - l1.length = 1 := by omega
    rw [h3]
    simp
  have ht := List.take_left l1 ('.' :: '.' :: l2)
  rw [← heq] at ht
  have hk : l1.length ≤ 6 := by omega
  set k := l1.length with hkd
  interval_cases k
  · exact absurd hc1 (by decide)
  · have hl1 : l1 = ['a'] := by
      rw [← ht]
      decide
    rcases hb1 with hb | hb
    · rw [hb] at hkd
      simp at hkd
    · rw [hl1] at hb
      exact absurd hb (by decide)
  · exact absurd hc2 (by decide)
  · exact absurd hc1 (by decide)
  · exact absurd hc2 (by decide)
  · exact absurd hc1 (by decide)
  · exact absurd hc1 (by decide)

/-- Claim C8, counterexample: "a..b.png" carries an allow-listed extension
and no parent-directory traversal segment, yet media validation rejects it
with the unsafe-media-path error, because the code tests for the substring
".." anywhere; "../../etc/passwd.png" is rejected the same way. -/
theorem C8_dotdot_substring_counterexample :
    validateMediaPath (str "a..b.png") = .error .traversalDetected ∧
    ¬ TraversalSegment (str "a..b.png") ∧
    str ".png" ∈ validExtensions ∧
    (str ".png").isSuffixOf ((str "a..b.png").map asciiToLower) = true ∧
    validateMediaPath (str "../../etc/passwd.png") =
      .error .traversalDetected :=
  ⟨by decide, c8path_no_traversal, by decide, by decide, by decide⟩

/-- Claim C8 as amended: media validation accepts a path exactly when its
lowercased form ends in an allow-listed extension and the path nowhere
contains the two-character substring ".." — a strictly stronger filter than
rejecting traversal segments; in particular every path containing a
traversal segment (hence "../../etc/passwd.png") is rejected with the
unsafe-media-path error.  Stated for ASCII paths, where the model's
lowercasing agrees with strings.ToLower. -/
theorem C8_media_path_characterization (path : List Char)
    (_hA : path.all (fun c => c.toNat < 128) = true) :
    (validateMediaPath path = .ok () ↔
      (containsDotDot path = false ∧
        ∃ ext ∈ validExtensions, List.IsSuffix ext (path.map asciiToLower))) ∧
    (TraversalSegment path → validateMediaPath path = .error .traversalDetected) := by
  constructor
  · unfold validateMediaPath
    by_cases hdd : containsDotDot path = true
    · simp [hdd]
    · have hdd2 : containsDotDot path = false := by
        simpa using hdd
      by_cases hext : validExtensions.any
          (fun ext => ext.isSuffixOf (path.map asciiToLower)) = true
      · rw [if_neg (by simp [hdd2]), if_pos hext]
        rw [List.any_eq_true] at hext
        obtain ⟨ext, hmem, hsuf⟩ := hext
        rw [List.isSuffixOf_iff_suffix] at hsuf
        simp only [hdd2, true_and]
        simp only [true_iff, iff_true]
        exact ⟨ext, hmem, hsuf⟩
      · rw [if_neg (by simp [hdd2]), if_neg hext]
        simp only [List.any_eq_true, not_exists, not_and] at hext
        constructor
        · intro hfalse
          exact absurd hfalse (by simp)
        · rintro ⟨-, ext, hmem, hsuf⟩
          have := hext ext hmem
          rw [List.isSuffixOf_iff_suffix] at this
          exact absurd hsuf this
  · rintro ⟨l1, l2, heq, -, -⟩
    unfold validateMediaPath
    rw [heq, if_pos (containsDotDot_append l1 l2)]

/-- Witness for C8 at a concrete ASCII path. -/
theorem C8_media_path_characterization_witness :
    ((validateMediaPath (str "photo.PNG") = .ok () ↔
      (containsDotDot (str "photo.PNG") = false ∧
        ∃ ext ∈ validExtensions,
          List.IsSuffix ext ((str "photo.PNG").map asciiToLower))) ∧
    (TraversalSegment (str "photo.PNG") →
      validateMediaPath (str "photo.PNG") = .error .traversalDetected)) :=
  C8_media_path_characterization (str "photo.PNG") (by decide)

/-- A validated recipient is non-empty. -/
theorem validatePhoneNumber_ok_ne_nil (p : List Char)
    (h : validatePhoneNumber p = .ok ()) : ¬ p = [] := by
  intro hp
  unfold validatePhoneNumber at h
  rw [if_pos hp] at h
  exact absurd h (by simp)

/-- An omitted (empty) string field serializes to nothing. -/
theorem optStrField_nil (name : List Char) : optStrField name [] = [] := by
  simp [optStrField]

/-- A present string field serializes with its leading comma. -/
theorem optStrField_ne (name v : List Char) (h : ¬ v = []) :
    optStrField name v = ',' :: (nameColon name ++ jsonString v) := by
  unfold optStrField
  rw [if_neg h]

/-- An omitted (empty) array field serializes to nothing. -/
theorem optArrField_nil (name : List Char) : optArrField name [] = [] := by
  simp [optArrField]

/-- A present array field serializes with its leading comma. -/
theorem optArrField_ne (name : List Char) (vs : List (List Char))
    (h : ¬ vs = []) : optArrField name vs = ',' :: (nameColon name ++ jsonArray vs) := by
  unfold optArrField
  rw [if_neg h]

/-- An omitted (zero) integer field serializes to nothing. -/
theorem optIntField_zero (name : List Char) : optIntField name 0 = [] := by
  simp [optIntField]

/-- A present integer field serializes with its leading comma. -/
theorem optIntField_ne (name : List Char) (v : Int) (h : ¬ v = 0) :
    optIntField name v = ',' :: (nameColon name ++ jsonInt v) := by
  unfold optIntField
  rw [if_neg h]

/-- The serialized "to" key. -/
theorem nameColon_to : nameColon (str "to") = ['"', 't', 'o', '"', ':'] := by
  decide

/-- The serialized "content" key. -/
theorem nameColon_content : nameColon (str "content") =
    ['"', 'c', 'o', 'n', 't', 'e', 'n', 't', '"', ':'] := by decide

/-- The serialized "media" key. -/
theorem nameColon_media : nameColon (str "media") =
    ['"', 'm', 'e', 'd', 'i', 'a', '"', ':'] := by decide

/-- The serialized "timestamp" key. -/
theorem nameColon_timestamp : nameColon (str "timestamp") =
    ['"', 't', 'i', 'm', 'e', 's', 't', 'a', 'm', 'p', '"', ':'] := by decide

/-- The ideal MAC never produces the empty string (its prefix alone is
twelve characters). -/
theorem calculateSignature_ne_nil (key data : List Char) :
    ¬ calculateSignature key data = [] := by
  intro h
  have h2 := congrArg List.length h
  have h3 : (str "hmac-sha256:").length = 12 := by decide
  simp [calculateSignature, List.length_append, h3] at h2

/-- For a fixed key the ideal MAC is injective in the signed bytes. -/
theorem calculateSignature_inj (key a b : List Char)
    (h : calculateSignature key a = calculateSignature key b) : a = b := by
  unfold calculateSignature at h
  exact List.append_cancel_left h

/-- Shape of every message ValidateOutgoing emits under a non-empty key:
its type is "message", its recipient is non-empty, and its signature is the
MAC of its own serialization with the signature field cleared. -/
theorem ValidateOutgoing_ok_shape (key : List Char) (now : Int)
    (msg out : OutgoingMessage) (hk : ¬ key = [])
    (h : ValidateOutgoing key now msg = .ok out) :
    out.type = str "message" ∧ ¬ out.to_ = [] ∧
    out.signature = calculateSignature key
      (marshalOutgoing { out with signature := [] }) := by
  unfold ValidateOutgoing at h
  by_cases h1 : msg.type = str "message"
  case neg =>
    rw [if_pos (by simp [h1])] at h
    exact absurd h (by simp)
  case pos =>
    rw [if_neg (by simp [h1])] at h
    cases h2 : validatePhoneNumber msg.to_ with
    | error e =>
      rw [h2] at h
      exact absurd h (by simp)
    | ok u =>
      cases u
      rw [h2] at h
      cases h3 : sanitizeContent msg.content with
      | error e =>
        rw [h3] at h
        exact absurd h (by simp)
      | ok s =>
        rw [h3] at h
        cases h4 : validateMediaList msg.media with
        | error e =>
          rw [h4] at h
          exact absurd h (by simp)
        | ok v =>
          cases v
          rw [h4] at h
          simp only [Except.ok.injEq] at h
          have hMty : (if msg.timestamp = 0 then
              ({ msg with content := s, timestamp := now } : OutgoingMessage)
            else { msg with content := s }).type = msg.type := by
            split <;> rfl
          have hMto : (if msg.timestamp = 0 then
              ({ msg with content := s, timestamp := now } : OutgoingMessage)
            else { msg with content := s }).to_ = msg.to_ := by
            split <;> rfl
          subst h
          refine ⟨?_, ?_, ?_⟩
          · rw [(signMessage_fields key _).1, hMty]
            exact h1
          · rw [(signMessage_fields key _).2.1, hMto]
            exact validatePhoneNumber_ok_ne_nil msg.to_ h2
          · unfold signMessage
            rw [if_neg hk]

/-- The canonical serializations compared by the round trip can never
agree: the outbound one carries a "to" member that the inbound schema has
no field for, so the recomputed serialization lacks it. -/
theorem marshalIncoming_ne_marshalOutgoing (o : OutgoingMessage)
    (inc : IncomingMessage) (hot : o.type = str "message")
    (hto : ¬ o.to_ = []) (hos : o.signature = [])
    (hit : inc.type = str "message") (hid : inc.id = [])
    (hifrom : inc.from_ = []) (hichat : inc.chat = [])
    (hifn : inc.from_name = []) (hist : inc.status = [])
    (hierr : inc.error = []) (hisig : inc.signature = []) :
    ¬ marshalIncoming inc = marshalOutgoing o := by
  intro h
  unfold marshalIncoming marshalOutgoing at h
  rw [hot, hit, hid, hifrom, hichat, hifn, hist, hierr, hisig, hos,
    optStrField_nil, optStrField_nil, optStrField_nil, optStrField_nil,
    optStrField_nil, optStrField_nil, optStrField_nil,
    optStrField_ne (str "to") o.to_ hto, nameColon_to] at h
  simp only [List.nil_append, List.append_nil, List.cons.injEq,
    List.cons_append, List.append_assoc, true_and] at h
  have h3 := List.append_cancel_left h
  have h4 := List.append_cancel_left h3
  by_cases hC : inc.content = []
  · rw [hC, optStrField_nil, List.nil_append] at h4
    by_cases hM : inc.media = []
    · rw [hM, optArrField_nil, List.nil_append] at h4
      by_cases hT : inc.timestamp = 0
      · rw [hT, optIntField_zero, List.nil_append] at h4
        simp only [List.cons.injEq] at h4
        exact absurd h4.1 (by decide)
      · rw [optIntField_ne (str "timestamp") inc.timestamp hT,
          nameColon_timestamp] at h4
        simp only [List.cons_append, List.append_assoc, List.cons.injEq] at h4
        exact absurd h4.2.2.2.1 (by decide)
    · rw [optArrField_ne (str "media") inc.media hM, nameColon_media] at h4
      simp only [List.cons_append, List.append_assoc, List.cons.injEq] at h4
      exact absurd h4.2.2.1 (by decide)
  · rw [optStrField_ne (str "content") inc.content hC, nameColon_content] at h4
    simp only [List.cons_append, List.append_assoc, List.cons.injEq] at h4
    exact absurd h4.2.2.1 (by decide)

/-- Claim C2 as amended: for every outbound message of type "message" with
a valid recipient that ValidateOutgoing validates and signs under a
non-empty key, parsing the identical serialized byte stream as an inbound
message and re-running VerifySignature with the same key FAILS with the
signature-mismatch error — the inbound schema has no "to" field, so the
serialization recomputed for verification differs from the one signed —
and it equally fails after changing the content to any other value. -/
theorem C2_roundtrip_verification_fails (key : List Char) (now : Int)
    (msg out : OutgoingMessage) (c2 : List Char) (hk : ¬ key = [])
    (h : ValidateOutgoing key now msg = .ok out) :
    VerifySignature key
      { decodeOutgoingAsIncoming out with content := c2 } =
      .error .invalidSignature := by
  obtain ⟨hot, hto, hsig⟩ := ValidateOutgoing_ok_shape key now msg out hk h
  unfold VerifySignature
  rw [if_neg hk]
  have hsne : ¬ ({ decodeOutgoingAsIncoming out with content := c2 } :
      IncomingMessage).signature = [] := by
    show ¬ out.signature = []
    rw [hsig]
    exact calculateSignature_ne_nil _ _
  rw [if_neg hsne, if_neg ?_]
  intro hEq
  have hEq2 : out.signature = calculateSignature key
      (marshalIncoming { ({ decodeOutgoingAsIncoming out with content := c2 } :
        IncomingMessage) with signature := [] }) := hEq
  have hdata := calculateSignature_inj key _ _ (hsig.symm.trans hEq2)
  exact marshalIncoming_ne_marshalOutgoing
    { out with signature := [] }
    { ({ decodeOutgoingAsIncoming out with content := c2 } :
      IncomingMessage) with signature := [] }
    hot hto rfl hot rfl rfl rfl rfl rfl rfl rfl hdata.symm

/-- The key of the C2 counterexample. -/
def c2key : List Char := str "secret"

/-- The outbound message of the C2 counterexample. -/
def c2out : OutgoingMessage :=
  { type := str "message", to_ := str "+1", content := str "hi", timestamp := 1 }

/-- c2out after validation and signing. -/
def c2signed : OutgoingMessage :=
  { c2out with signature := calculateSignature c2key (marshalOutgoing c2out) }

/-- Claim C2, counterexample: this concrete outbound message validates and
signs under the key "secret", yet parsing its serialized bytes back as an
inbound message and re-running the HMAC check with the same key fails with
the signature-mismatch error, refuting the claimed round trip. -/
theorem C2_roundtrip_counterexample :
    ValidateOutgoing c2key 1 c2out = .ok c2signed ∧
    VerifySignature c2key (decodeOutgoingAsIncoming c2signed) =
      .error .invalidSignature := by decide

/-- Witness for C2 at the concrete counterexample message. -/
theorem C2_roundtrip_verification_fails_witness :
    VerifySignature c2key
      { decodeOutgoingAsIncoming c2signed with content := str "hi" } =
      .error .invalidSignature :=
  C2_roundtrip_verification_fails c2key 1 c2out c2signed (str "hi")
    (by decide) (by decide)

end Picoclaw
